import Mathlib

/-!
Shallow embedding of the `ops` Go package (src/ops.go): operation handles with
failure latching, scoped metadata, and an observer (Reporter) registry.

The hierarchical context store (the external `context` package) is out of the
repository; its operations are modelled from the spec's capability contract
(section 6): a stack of scopes holding static and dynamic tags, flattened
root-to-leaf with descendant override, dynamic tags evaluated at flatten time.

Reporters are Go closures; we represent each by a numeric identifier. Because
a Go map is a reference type, the single map built by `AsMap` in `Exit` is
shared by all reporter invocations of that call; a reporter's possible
mutation of the map is modelled by a behaviour function `Nat → Option Nat →
CtxMap → CtxMap` threading the map through the invocation loop, and each
invocation records the map exactly as it was passed to that reporter.
-/

namespace Ops

/-- Metadata values (Go interface values restricted to the shapes the claims need). -/
inductive Value where
  | str (s : String)
  | nat (n : Nat)
  | errV (e : Nat)
  deriving DecidableEq, Repr

/-- One tag at a scope level: a static value, or a dynamic value function
identified by an id and evaluated at flatten time through an environment. -/
inductive TagEntry where
  | static (v : Value)
  | dyn (id : Nat)
  deriving DecidableEq, Repr

/-- One level of the scope stack: an insertion-ordered association list. -/
abbrev Scope := List (String × TagEntry)

/-- The scope stack of the hierarchical context store; head is the innermost scope. -/
abbrev Ctx := List Scope

/-- The flattened metadata map handed to reporters (Go map[string]interface, as
an association list). -/
abbrev CtxMap := List (String × Value)

/-- Insert or overwrite a key in an association map, keeping insertion order. -/
def mapPut (m : CtxMap) (k : String) (v : Value) : CtxMap :=
  match m with
  | [] => [(k, v)]
  | (k', v') :: rest => if k' = k then (k, v) :: rest else (k', v') :: mapPut rest k v

/-- Look a key up in the flattened map. -/
def mapLookup (m : CtxMap) (k : String) : Option Value :=
  match m with
  | [] => none
  | (k', v) :: rest => if k' = k then some v else mapLookup rest k

/-- Insert or overwrite a tag at one scope level. -/
def scopePut (s : Scope) (k : String) (e : TagEntry) : Scope :=
  match s with
  | [] => [(k, e)]
  | (k', e') :: rest => if k' = k then (k, e) :: rest else (k', e') :: scopePut rest k e

/-- Look a key up at one scope level. -/
def scopeLookup (s : Scope) (k : String) : Option TagEntry :=
  match s with
  | [] => none
  | (k', e) :: rest => if k' = k then some e else scopeLookup rest k

/-- Modelled from the spec: a key's binding anywhere in the ancestor chain,
innermost level first (used by putIfAbsent's absence test). -/
def chainLookup (c : Ctx) (k : String) : Option TagEntry :=
  match c with
  | [] => none
  | s :: rest =>
    match scopeLookup s k with
    | some e => some e
    | none => chainLookup rest k

/-- Modelled from the spec: enterScope pushes a fresh child scope. -/
def ctxEnter (c : Ctx) : Ctx := [] :: c

/-- Modelled from the spec: put attaches or overwrites a static tag at the
current (innermost) scope level. -/
def ctxPut (c : Ctx) (k : String) (v : Value) : Ctx :=
  match c with
  | [] => [scopePut [] k (.static v)]
  | s :: rest => scopePut s k (.static v) :: rest

/-- Modelled from the spec: putIfAbsent attaches only if no value for the key
exists anywhere in the ancestor chain up to and including this scope. -/
def ctxPutIfAbsent (c : Ctx) (k : String) (v : Value) : Ctx :=
  match chainLookup c k with
  | some _ => c
  | none => ctxPut c k v

/-- Modelled from the spec: putDynamic attaches a dynamic tag at the innermost
scope level. -/
def ctxPutDynamic (c : Ctx) (k : String) (id : Nat) : Ctx :=
  match c with
  | [] => [scopePut [] k (.dyn id)]
  | s :: rest => scopePut s k (.dyn id) :: rest

/-- Modelled from the spec: exitScope pops one level, yielding the parent scope. -/
def ctxExit (c : Ctx) : Ctx := c.tail

/-- Fold one tag into the flattened map, recording the id of any dynamic tag
evaluated (the environment env gives each dynamic function's current value). -/
def flattenEntry (env : Nat → Value) (acc : CtxMap × List Nat) (kv : String × TagEntry) :
    CtxMap × List Nat :=
  match kv.2 with
  | .static v => (mapPut acc.1 kv.1 v, acc.2)
  | .dyn id => (mapPut acc.1 kv.1 (env id), acc.2 ++ [id])

/-- Modelled from the spec: flatten merges all levels root-to-innermost, a
descendant overriding an ancestor on key collision, evaluating dynamic tags
now; the second component lists the dynamic ids evaluated, in order. -/
def flattenCtx (c : Ctx) (env : Nat → Value) : CtxMap × List Nat :=
  c.reverse.flatten.foldl (flattenEntry env) ([], [])

/-- Modelled from the spec: AsMap is flatten plus the explicit present/absent
failure field (a key present exactly when a failure is latched). -/
def asMap (c : Ctx) (failure : Option Nat) (includeFailure : Bool) (env : Nat → Value) :
    CtxMap × List Nat :=
  let fl := flattenCtx c env
  match includeFailure, failure with
  | true, some e => (mapPut fl.1 "error" (.errV e), fl.2)
  | _, _ => fl

/-- The operation handle of src/ops.go: a position in the context store and a
latched failure (errors are represented by numeric identities). -/
structure Op where
  ctx : Ctx
  failure : Option Nat
  deriving DecidableEq, Repr

/-- src/ops.go Enter (package level): push a scope, always overwrite op, set
root_op only if absent in the whole chain; ambient is the caller's current
context (empty at process start). -/
def enterCtx (c : Ctx) (name : String) : Ctx :=
  ctxPutIfAbsent (ctxPut (ctxEnter c) "op" (.str name)) "root_op" (.str name)

/-- src/ops.go Enter: a fresh handle over the new scope, no failure latched. -/
def Enter (ambient : Ctx) (name : String) : Op :=
  ⟨enterCtx ambient name, none⟩

/-- src/ops.go op.Enter: nested child of this handle's scope. -/
def Op.Enter (o : Op) (name : String) : Op :=
  ⟨enterCtx o.ctx name, none⟩

/-- src/ops.go op.Put: mutate the innermost scope, return the handle. -/
def Op.Put (o : Op) (k : String) (v : Value) : Op :=
  { o with ctx := ctxPut o.ctx k v }

/-- src/ops.go op.PutDynamic: attach a dynamic tag, return the handle. -/
def Op.PutDynamic (o : Op) (k : String) (id : Nat) : Op :=
  { o with ctx := ctxPutDynamic o.ctx k id }

/-- src/ops.go op.Go: spawn with this handle's scope as the inherited ambient
context; the receiver is untouched (first component) and the spawned work's
ambient scope is the second component. -/
def Op.Go (o : Op) : Op × Ctx :=
  (o, o.ctx)

/-- src/ops.go op.FailOnError: latch a non-nil error (latest wins), return the
error unchanged; first component is the returned error, second the handle. -/
def Op.FailOnError (o : Op) (err : Option Nat) : Option Nat × Op :=
  match err with
  | some e => (some e, { o with failure := some e })
  | none => (none, o)

/-- One reporter invocation during Exit: which reporter, the failure argument,
and the map exactly as passed to that reporter (before its own mutation). -/
structure Invocation where
  reporter : Nat
  failArg : Option Nat
  seenMap : CtxMap
  deriving DecidableEq, Repr

/-- Everything one Exit call produces: the returned parent handle, the reporter
invocations in order, how many times the context was flattened, and the
dynamic-tag ids evaluated. -/
structure ExitOut where
  next : Op
  invocations : List Invocation
  flattenCalls : Nat
  dynEvals : List Nat
  deriving DecidableEq, Repr

/-- The invocation loop of src/ops.go op.Exit: the same (reference-typed) map
is passed to each reporter in turn, so a reporter's mutation (its behaviour's
result) is what the next reporter receives. -/
def runReporters (f : Option Nat) (behav : Nat → Option Nat → CtxMap → CtxMap) :
    List Nat → CtxMap → List Invocation
  | [], _ => []
  | r :: rs, m => ⟨r, f, m⟩ :: runReporters f behav rs (behav r f m)

/-- src/ops.go op.Exit: given the registry snapshot it copied under the read
lock, flatten once if the snapshot is non-empty, invoke each reporter in order
with the latched failure and the shared map, pop the scope, and return a fresh
handle over the parent scope with no failure latched. -/
def Op.Exit (o : Op) (snapshot : List Nat) (behav : Nat → Option Nat → CtxMap → CtxMap)
    (env : Nat → Value) : ExitOut :=
  match snapshot with
  | [] => ⟨⟨ctxExit o.ctx, none⟩, [], 0, []⟩
  | r :: rs =>
    let fl := asMap o.ctx o.failure true env
    ⟨⟨ctxExit o.ctx, none⟩, runReporters o.failure behav (r :: rs) fl.1, 1, fl.2⟩

/-! Interleaving model of the registry (src/ops.go lines 14-17, 54-58, 79-86).

RegisterReporter appends under the write lock; Exit copies the list under the
read lock (an atomic snapshot) and then invokes reporters from that private
copy, so registrations may interleave with the invocation phase. A trace is a
list of atomic events: a registration, a snapshot read (opening a new exit
event, numbered by a counter), or the invocation of the next reporter of an
open exit event. The state keeps, per exit event, the snapshot it read (its
remaining, not yet invoked part) and a global log of invocations. -/

/-- Reporter identities are numbers; the concurrency state of the registry. -/
structure TState where
  registry : List Nat
  nextEid : Nat
  snaps : Nat → Option (List Nat × List Nat)
  log : List (Nat × Nat)

/-- An atomic event of the interleaved execution. -/
inductive REvent where
  | register (r : Nat)
  | snapshot
  | invokeOne (eid : Nat)

/-- One atomic step: registration appends under the write lock; a snapshot
copies the registry as a new exit event; invokeOne invokes the next reporter
of that event's private copy (a no-op if the copy is exhausted). -/
def stepT (s : TState) : REvent → TState
  | .register r => { s with registry := s.registry ++ [r] }
  | .snapshot =>
    { s with
      snaps := fun e => if e = s.nextEid then some (s.registry, s.registry) else s.snaps e
      nextEid := s.nextEid + 1 }
  | .invokeOne eid =>
    match s.snaps eid with
    | some (orig, r :: rest) =>
      { s with
        snaps := fun e => if e = eid then some (orig, rest) else s.snaps e
        log := s.log ++ [(eid, r)] }
    | _ => s

/-- Run a trace of atomic events from a state. -/
def runT (evs : List REvent) (s : TState) : TState :=
  evs.foldl stepT s

/-- The empty registry at process start. -/
def initT : TState :=
  ⟨[], 0, fun _ => none, []⟩

/-- The reporters invoked, in order, for one exit event of a trace. -/
def logFor (eid : Nat) (log : List (Nat × Nat)) : List Nat :=
  (log.filter (fun q => q.1 = eid)).map (fun q => q.2)

/-- The registrations of a trace, in order. -/
def registersOf (evs : List REvent) : List Nat :=
  evs.filterMap (fun e => match e with | .register r => some r | _ => none)

/-- The snapshot-consistency invariant: every open exit event's snapshot equals
what it has already invoked plus its remaining copy, and event numbers stay
below the counter. -/
def InvT (s : TState) : Prop :=
  (∀ e orig rem, s.snaps e = some (orig, rem) → logFor e s.log ++ rem = orig ∧ e < s.nextEid) ∧
  (∀ q ∈ s.log, q.1 < s.nextEid)

/-- A reporter behaviour that never mutates the shared map. -/
def behav0 : Nat → Option Nat → CtxMap → CtxMap := fun _ _ m => m

/-- A reporter behaviour where reporter 0 writes key x into the shared map. -/
def mutBehav : Nat → Option Nat → CtxMap → CtxMap :=
  fun r _ m => if r = 0 then mapPut m "x" (.nat 42) else m

/-- A dynamic-tag environment used to instantiate theorems on concrete inputs. -/
def env0 : Nat → Value := fun _ => .nat 0

/-- Two consecutive FailOnError calls with non-nil errors on the same handle. -/
def latchTwice (h : Op) (a b : Nat) : Op :=
  ((h.FailOnError (some a)).2.FailOnError (some b)).2

/-- The handles on which FailOnError has never been called with a non-nil
error: built by entering (root or child), metadata puts, nil FailOnError
calls, and the parent handle an Exit returns. -/
inductive NoFail : Op → Prop where
  | enterTop (amb : Ctx) (n : String) : NoFail (Enter amb n)
  | enterChild (h : Op) (n : String) : NoFail (Op.Enter h n)
  | put (h : Op) (k : String) (v : Value) : NoFail h → NoFail (h.Put k v)
  | putDyn (h : Op) (k : String) (d : Nat) : NoFail h → NoFail (h.PutDynamic k d)
  | failNone (h : Op) : NoFail h → NoFail (h.FailOnError none).2
  | exitParent (h : Op) (reps : List Nat) (behav : Nat → Option Nat → CtxMap → CtxMap)
      (env : Nat → Value) : NoFail ((h.Exit reps behav env).next)

/-- A root handle used for concrete instantiations. -/
def cexOp : Op := Enter [] "A"

/-- The map one Exit of cexOp flattens (no failure latched). -/
def cexMap0 : CtxMap := (asMap cexOp.ctx cexOp.failure true env0).1

/-- What reporter 0 receives during that Exit. -/
def cexInv0 : Invocation := ⟨0, none, cexMap0⟩

/-- What reporter 1 receives: the shared map already mutated by reporter 0. -/
def cexInv1 : Invocation := ⟨1, none, mutBehav 0 none cexMap0⟩

/-- The spec's snapshot-isolation scenario as an interleaved trace: register
O1, begin an exit (snapshot), register O2 concurrently, finish the first
exit's invocation, then run a second exit to completion. -/
def scenarioTrace (o1 o2 : Nat) : List REvent :=
  [.register o1, .snapshot, .register o2, .invokeOne 0, .snapshot,
   .invokeOne 1, .invokeOne 1]

/-! Helper lemmas about the invocation loop and the registry trace model. -/

theorem runReporters_map_reporter (f : Option Nat) (behav : Nat → Option Nat → CtxMap → CtxMap) :
    ∀ (rs : List Nat) (m : CtxMap),
      (runReporters f behav rs m).map (fun i => i.reporter) = rs := by
  intro rs
  induction rs with
  | nil => intro m; rfl
  | cons r rs ih => intro m; simp [runReporters, ih]

theorem runReporters_map_failArg (f : Option Nat) (behav : Nat → Option Nat → CtxMap → CtxMap) :
    ∀ (rs : List Nat) (m : CtxMap),
      (runReporters f behav rs m).map (fun i => i.failArg) = rs.map (fun _ => f) := by
  intro rs
  induction rs with
  | nil => intro m; rfl
  | cons r rs ih => intro m; simp [runReporters, ih]

theorem runReporters_get_succ (f : Option Nat) (behav : Nat → Option Nat → CtxMap → CtxMap) :
    ∀ (rs : List Nat) (m : CtxMap) (k : Nat) (a b : Invocation),
      (runReporters f behav rs m)[k]? = some a →
      (runReporters f behav rs m)[k + 1]? = some b →
      b.seenMap = behav a.reporter a.failArg a.seenMap := by
  intro rs
  induction rs with
  | nil => intro m k a b ha; simp [runReporters] at ha
  | cons r rs ih =>
    intro m k a b ha hb
    cases k with
    | zero =>
      simp [runReporters] at ha hb
      cases rs with
      | nil => simp [runReporters] at hb
      | cons r' rs' =>
        simp [runReporters] at hb
        subst ha
        simp [← hb]
    | succ k =>
      simp [runReporters] at ha hb
      exact ih (behav r f m) k a b ha hb

theorem logFor_append (e : Nat) (l : List (Nat × Nat)) (e' : Nat) (r : Nat) :
    logFor e (l ++ [(e', r)]) = logFor e l ++ (if e' = e then [r] else []) := by
  by_cases h : e' = e <;> simp [logFor, List.filter_append, h]

theorem stepT_registry (s : TState) (e : REvent) :
    (stepT s e).registry = match e with
      | .register r => s.registry ++ [r]
      | _ => s.registry := by
  cases e with
  | register r => rfl
  | snapshot => rfl
  | invokeOne eid =>
    simp only [stepT]
    cases hs : s.snaps eid with
    | none => rfl
    | some p =>
      rcases p with ⟨orig, rem⟩
      cases rem with
      | nil => rfl
      | cons r rest => rfl

theorem invT_step (s : TState) (e : REvent) (h : InvT s) : InvT (stepT s e) := by
  obtain ⟨h1, h2⟩ := h
  cases e with
  | register r => exact ⟨h1, h2⟩
  | snapshot =>
    constructor
    · intro e orig rem he
      have he' : (if e = s.nextEid then some (s.registry, s.registry) else s.snaps e) =
          some (orig, rem) := he
      show logFor e s.log ++ rem = orig ∧ e < s.nextEid + 1
      by_cases hcase : e = s.nextEid
      · rw [if_pos hcase, Option.some_inj, Prod.mk.injEq] at he'
        obtain ⟨ho, hr⟩ := he'
        have hempty : logFor e s.log = [] := by
          simp only [logFor]
          rw [List.filter_eq_nil_iff.mpr, List.map_nil]
          intro q hq
          have hlt := h2 q hq
          simp only [decide_eq_true_eq]
          omega
        refine ⟨?_, by omega⟩
        rw [hempty, List.nil_append, ← hr, ← ho]
      · rw [if_neg hcase] at he'
        obtain ⟨hl, hlt⟩ := h1 e orig rem he'
        exact ⟨hl, by omega⟩
    · intro q hq
      have hq' : q ∈ s.log := hq
      show q.1 < s.nextEid + 1
      have := h2 q hq'
      omega
  | invokeOne eid =>
    show InvT (match s.snaps eid with
      | some (orig, r :: rest) =>
        { s with
          snaps := fun e => if e = eid then some (orig, rest) else s.snaps e
          log := s.log ++ [(eid, r)] }
      | _ => s)
    cases hs : s.snaps eid with
    | none => exact ⟨h1, h2⟩
    | some p =>
      rcases p with ⟨orig, rem⟩
      cases rem with
      | nil => exact ⟨h1, h2⟩
      | cons r rest =>
        obtain ⟨hl0, hlt0⟩ := h1 eid orig (r :: rest) hs
        constructor
        · intro e o' rem' he
          have he' : (if e = eid then some (orig, rest) else s.snaps e) = some (o', rem') := he
          show logFor e (s.log ++ [(eid, r)]) ++ rem' = o' ∧ e < s.nextEid
          by_cases hcase : e = eid
          · rw [if_pos hcase, Option.some_inj, Prod.mk.injEq] at he'
            obtain ⟨ho, hr⟩ := he'
            refine ⟨?_, by omega⟩
            rw [logFor_append, hcase, if_pos rfl, List.append_assoc, ← hr, ← ho]
            simpa using hl0
          · rw [if_neg hcase] at he'
            obtain ⟨hl, hlt⟩ := h1 e o' rem' he'
            refine ⟨?_, hlt⟩
            rw [logFor_append, if_neg (fun hh => hcase hh.symm)]
            simpa using hl
        · intro q hq
          have hq' : q ∈ s.log ++ [(eid, r)] := hq
          show q.1 < s.nextEid
          simp only [List.mem_append, List.mem_singleton] at hq'
          rcases hq' with hq' | hq'
          · exact h2 q hq'
          · subst hq'; exact hlt0

theorem invT_run (evs : List REvent) : ∀ s : TState, InvT s → InvT (runT evs s) := by
  induction evs with
  | nil => intro s h; exact h
  | cons e evs ih => intro s h; exact ih (stepT s e) (invT_step s e h)

theorem invT_init : InvT initT := by
  constructor
  · intro e orig rem he; simp [initT] at he
  · intro q hq; simp [initT] at hq

theorem NoFail_failure : ∀ {h : Op}, NoFail h → h.failure = none := by
  intro h hn
  induction hn with
  | enterTop amb n => rfl
  | enterChild h n => rfl
  | put h k v _ ih => exact ih
  | putDyn h k d _ ih => exact ih
  | failNone h _ ih => exact ih
  | exitParent h reps behav env => cases reps <;> rfl

/-- C10: Exit never modifies the global observer registry: over any
interleaved trace of registrations, snapshot reads, and reporter invocations,
the registry ends as the initial registry extended by exactly the
RegisterReporter events, in their order — snapshot and invocation steps (the
whole of Exit's interaction with the registry) leave it unchanged. -/
theorem exit_preserves_registry (evs : List REvent) :
    ∀ s : TState, (runT evs s).registry = s.registry ++ registersOf evs := by
  induction evs with
  | nil => intro s; simp [runT, registersOf]
  | cons e evs ih =>
    intro s
    have hstep := stepT_registry s e
    cases e with
    | register r =>
      simp only [runT, List.foldl_cons] at ih ⊢
      rw [ih (stepT s (.register r)), hstep]
      simp [registersOf, List.filterMap_cons]
    | snapshot =>
      simp only [runT, List.foldl_cons] at ih ⊢
      rw [ih (stepT s .snapshot), hstep]
      simp [registersOf, List.filterMap_cons]
    | invokeOne eid =>
      simp only [runT, List.foldl_cons] at ih ⊢
      rw [ih (stepT s (.invokeOne eid)), hstep]
      simp [registersOf, List.filterMap_cons]

/-! The claim theorems. -/

/-- C9: frame property of the non-failure mutators: Put, PutDynamic, Enter and
Go never modify a handle's latched failure (Put and PutDynamic return the
handle with only its context changed, Enter builds a fresh handle, Go leaves
the receiver untouched); FailOnError with nil preserves the failure and
FailOnError with a non-nil error is the only operation that changes it. -/
theorem mutators_preserve_failure (h : Op) (nm k : String) (v : Value) (d e : Nat) :
    (h.Put k v).failure = h.failure ∧
    (h.PutDynamic k d).failure = h.failure ∧
    (Op.Enter h nm).failure = none ∧
    h.Go.1 = h ∧
    (h.FailOnError none).2.failure = h.failure ∧
    (h.FailOnError (some e)).2.failure = some e :=
  ⟨rfl, rfl, rfl, rfl, rfl, rfl⟩

/-- C4: no-observer no-op: when the registry snapshot is empty, Exit invokes
no observer, performs no flatten (flattenCalls is 0) and evaluates no dynamic
value function, yet still pops one scope level and returns a fresh handle for
the parent scope with no failure latched. -/
theorem exit_no_observer_noop (h : Op) (behav : Nat → Option Nat → CtxMap → CtxMap)
    (env : Nat → Value) :
    h.Exit [] behav env = ⟨⟨ctxExit h.ctx, none⟩, [], 0, []⟩ :=
  rfl

/-- C5: Exit returns a fresh handle wrapping the popped parent scope with no
failure latched; in particular a handle whose failure is non-nil at exit time
gets back a handle distinct from itself — a child's failure never propagates
to the parent handle. -/
theorem exit_fresh_parent_handle (h : Op) (reps : List Nat)
    (behav : Nat → Option Nat → CtxMap → CtxMap) (env : Nat → Value) :
    (h.Exit reps behav env).next.failure = none ∧
    (h.Exit reps behav env).next.ctx = ctxExit h.ctx ∧
    (h.failure ≠ none → (h.Exit reps behav env).next ≠ h) := by
  have hnext : (h.Exit reps behav env).next = ⟨ctxExit h.ctx, none⟩ := by
    cases reps <;> rfl
  refine ⟨by rw [hnext], by rw [hnext], ?_⟩
  intro hf hcontra
  apply hf
  have hfail : h.failure = (h.Exit reps behav env).next.failure := by rw [hcontra]
  rw [hnext] at hfail
  exact hfail

theorem exit_fresh_parent_handle_witness :
    ((Enter [] "A").FailOnError (some 7)).2.failure ≠ none ∧
    ((((Enter [] "A").FailOnError (some 7)).2.Exit [] behav0 env0).next ≠
      ((Enter [] "A").FailOnError (some 7)).2) :=
  ⟨by decide,
   (exit_fresh_parent_handle ((Enter [] "A").FailOnError (some 7)).2 [] behav0 env0).2.2
     (by decide)⟩

/-- C1: latest-error-wins: after FailOnError(e1) then FailOnError(e2) with
both non-nil, the latched failure is e2 (never e1 when they differ), Exit
passes e2 to every invoked observer, and the latched failure is neither
cleared by a nil FailOnError nor altered by Put or PutDynamic. -/
theorem failOnError_latest_wins (h : Op) (a b : Nat) (reps : List Nat)
    (behav : Nat → Option Nat → CtxMap → CtxMap) (env : Nat → Value)
    (k : String) (v : Value) (d : Nat) :
    (latchTwice h a b).failure = some b ∧
    (a ≠ b → (latchTwice h a b).failure ≠ some a) ∧
    ((latchTwice h a b).Exit reps behav env).invocations.map (fun i => i.failArg) =
      reps.map (fun _ => some b) ∧
    ((latchTwice h a b).FailOnError none).2.failure = some b ∧
    ((latchTwice h a b).Put k v).failure = some b ∧
    ((latchTwice h a b).PutDynamic k d).failure = some b := by
  refine ⟨rfl, ?_, ?_, rfl, rfl, rfl⟩
  · intro hne hcontra
    exact hne (Option.some_inj.mp hcontra).symm
  · cases reps with
    | nil => rfl
    | cons r rs =>
      exact runReporters_map_failArg (some b) behav (r :: rs) _

theorem failOnError_latest_wins_witness :
    (1 : Nat) ≠ 2 ∧ (latchTwice (Enter [] "A") 1 2).failure ≠ some 1 :=
  ⟨by decide,
   (failOnError_latest_wins (Enter [] "A") 1 2 [0] behav0 env0 "k" (.nat 0) 0).2.1
     (by decide)⟩

/-- C7: FailOnError returns its argument unchanged, a nil argument has no side
effect at all, and a handle on which FailOnError was never called with a
non-nil error reports success: Exit passes a nil failure to every invoked
observer. -/
theorem failOnError_nil_noop_success (h : Op) (e : Option Nat) (reps : List Nat)
    (behav : Nat → Option Nat → CtxMap → CtxMap) (env : Nat → Value) :
    (h.FailOnError e).1 = e ∧
    (h.FailOnError none).2 = h ∧
    (NoFail h →
      (h.Exit reps behav env).invocations.map (fun i => i.failArg) =
        reps.map (fun _ => none)) := by
  refine ⟨by cases e <;> rfl, rfl, ?_⟩
  intro hn
  have hfail := NoFail_failure hn
  cases reps with
  | nil => rfl
  | cons r rs =>
    show (runReporters h.failure behav (r :: rs)
        (asMap h.ctx h.failure true env).1).map (fun i => i.failArg) =
      (r :: rs).map (fun _ => none)
    rw [hfail]
    exact runReporters_map_failArg none behav (r :: rs) _

theorem failOnError_nil_noop_success_witness :
    (((Enter [] "A").Put "k" (.nat 1)).Exit [0] behav0 env0).invocations.map
      (fun i => i.failArg) = [none] :=
  (failOnError_nil_noop_success ((Enter [] "A").Put "k" (.nat 1)) none [0] behav0 env0).2.2
    (NoFail.put (Enter [] "A") "k" (.nat 1) (NoFail.enterTop [] "A"))

/-- C8: registration-order invocation: with a non-empty snapshot, Exit invokes
exactly the snapshot's observers, once each, in registration order, passing
each the handle's latched failure; the first observer receives the flattened
metadata map. -/
theorem exit_registration_order (o : Op) (r : Nat) (rs : List Nat)
    (behav : Nat → Option Nat → CtxMap → CtxMap) (env : Nat → Value) :
    (o.Exit (r :: rs) behav env).invocations.map (fun i => i.reporter) = r :: rs ∧
    (o.Exit (r :: rs) behav env).invocations.map (fun i => i.failArg) =
      (r :: rs).map (fun _ => o.failure) ∧
    ((o.Exit (r :: rs) behav env).invocations.map (fun i => i.seenMap)).head? =
      some (asMap o.ctx o.failure true env).1 :=
  ⟨runReporters_map_reporter o.failure behav (r :: rs) _,
   runReporters_map_failArg o.failure behav (r :: rs) _,
   by rfl⟩

/-- C6: root_op stability and op override: after Enter(A).Enter(B).Enter(C)
the flattened metadata at the innermost level has op = C and root_op = A;
in general Enter overwrites op at the new level and sets root_op only when no
ancestor scope already defines it (first-write-wins across the chain). -/
theorem enter_root_op_stability (a b c : String) (co : Ctx) (n : String)
    (env : Nat → Value) :
    mapLookup (asMap (((Enter [] a).Enter b).Enter c).ctx none true env).1 "op" =
      some (.str c) ∧
    mapLookup (asMap (((Enter [] a).Enter b).Enter c).ctx none true env).1 "root_op" =
      some (.str a) ∧
    chainLookup (enterCtx co n) "op" = some (.static (.str n)) ∧
    chainLookup (enterCtx co n) "root_op" =
      some ((chainLookup co "root_op").getD (.static (.str n))) := by
  refine ⟨by rfl, by rfl, ?_, ?_⟩
  · cases hro : chainLookup co "root_op" <;>
      simp [enterCtx, ctxPutIfAbsent, ctxPut, ctxEnter, chainLookup, scopeLookup,
        scopePut, hro]
  · cases hro : chainLookup co "root_op" <;>
      simp [enterCtx, ctxPutIfAbsent, ctxPut, ctxEnter, chainLookup, scopeLookup,
        scopePut, hro]

/-- C3 counterexample: the flattened metadata of the exiting handle has no key
x, yet the map passed to reporter 1 contains the key x that reporter 0 wrote:
during one Exit the reporters share a single map, so one reporter's mutation
is observed in the map passed to another reporter. -/
theorem exit_shared_map_counterexample :
    mapLookup (asMap cexOp.ctx cexOp.failure true env0).1 "x" = none ∧
    (cexOp.Exit [0, 1] mutBehav env0).invocations[1]? = some cexInv1 ∧
    mapLookup cexInv1.seenMap "x" = some (.nat 42) := by
  refine ⟨by decide, by decide, by decide⟩

/-- C3 amended: during one Exit the context is flattened exactly once when the
snapshot is non-empty (and not at all when it is empty), and the single
resulting map is threaded through the reporters in sequence: each later
reporter receives the map exactly as left by the previous reporter's possible
mutation, rather than an independent defensive copy per invocation. -/
theorem exit_single_flatten_shared_map (o : Op) (reps : List Nat)
    (behav : Nat → Option Nat → CtxMap → CtxMap) (env : Nat → Value)
    (k : Nat) (a b : Invocation) :
    ((o.Exit reps behav env).flattenCalls = if reps = [] then 0 else 1) ∧
    ((o.Exit reps behav env).invocations[k]? = some a →
      (o.Exit reps behav env).invocations[k + 1]? = some b →
      b.seenMap = behav a.reporter a.failArg a.seenMap) := by
  constructor
  · cases reps with
    | nil => rfl
    | cons r rs => simp [Op.Exit]
  · intro ha hb
    cases reps with
    | nil => simp [Op.Exit] at ha
    | cons r rs =>
      exact runReporters_get_succ o.failure behav (r :: rs)
        (asMap o.ctx o.failure true env).1 k a b ha hb

theorem exit_single_flatten_shared_map_witness :
    (cexOp.Exit [0, 1] mutBehav env0).flattenCalls = 1 ∧
    cexInv1.seenMap = mutBehav cexInv0.reporter cexInv0.failArg cexInv0.seenMap := by
  constructor
  · have h1 := (exit_single_flatten_shared_map cexOp [0, 1] mutBehav env0 0
      cexInv0 cexInv1).1
    simpa using h1
  · exact (exit_single_flatten_shared_map cexOp [0, 1] mutBehav env0 0
      cexInv0 cexInv1).2 (by decide) (by decide)

/-- C2: registry snapshot isolation: in the interleaved trace that registers
O1, snapshots for a first exit event, registers O2 concurrently, and then
completes both that exit and a second one, the first exit invokes exactly O1
(O2 is absent) and the second invokes exactly O1 then O2, each once; and in
any trace, what an exit event has invoked plus the remaining part of its
private snapshot copy is exactly the registry as read at its snapshot, so an
observer is never invoked twice for one event and registrations after the
snapshot read never join that event. -/
theorem exit_snapshot_isolation (o1 o2 : Nat) (hne : o1 ≠ o2) :
    (logFor 0 (runT (scenarioTrace o1 o2) initT).log = [o1] ∧
     o2 ∉ logFor 0 (runT (scenarioTrace o1 o2) initT).log ∧
     logFor 1 (runT (scenarioTrace o1 o2) initT).log = [o1, o2] ∧
     (logFor 1 (runT (scenarioTrace o1 o2) initT).log).Nodup) ∧
    (∀ (evs : List REvent) (e : Nat) (orig rem : List Nat),
      (runT evs initT).snaps e = some (orig, rem) →
      logFor e (runT evs initT).log ++ rem = orig) := by
  have hrun : logFor 0 (runT (scenarioTrace o1 o2) initT).log = [o1] ∧
      logFor 1 (runT (scenarioTrace o1 o2) initT).log = [o1, o2] := by
    constructor <;> rfl
  refine ⟨⟨hrun.1, ?_, hrun.2, ?_⟩, ?_⟩
  · rw [hrun.1]
    simp [hne.symm]
  · rw [hrun.2]
    simp [hne]
  · intro evs e orig rem he
    exact ((invT_run evs initT invT_init).1 e orig rem he).1

theorem exit_snapshot_isolation_witness :
    (0 : Nat) ≠ 1 ∧
    logFor 0 (runT (scenarioTrace 0 1) initT).log = [0] ∧
    1 ∉ logFor 0 (runT (scenarioTrace 0 1) initT).log ∧
    logFor 1 (runT (scenarioTrace 0 1) initT).log = [0, 1] ∧
    logFor 0 (runT [.register 5, .snapshot, .invokeOne 0] initT).log ++ [] = [5] := by
  refine ⟨by decide, ((exit_snapshot_isolation 0 1 (by decide)).1).1,
    ((exit_snapshot_isolation 0 1 (by decide)).1).2.1,
    ((exit_snapshot_isolation 0 1 (by decide)).1).2.2.1, ?_⟩
  exact (exit_snapshot_isolation 0 1 (by decide)).2
    [.register 5, .snapshot, .invokeOne 0] 0 [5] [] (by rfl)

end Ops
